import Mathlib

/-!
# Verification of the fairpyx tabu-search price-equilibrium engine

Shallow embedding of `src/fairpyx/algorithms/tabu_search.py`.

Modelling conventions:
* Agents and items are arbitrary types with decidable equality; the source
  uses strings, the concrete test inputs below use `ℕ`.
* Python numbers (prices, budgets, valuations) live in an arbitrary linear
  ordered ring `R`; the source only ever adds, scales, compares and takes
  `max` of them, so every theorem below holds uniformly for `ℚ` or `ℝ`, and
  the concrete test inputs use `ℤ` (Python integer inputs).  Excess demands
  and capacities are integers, as in the source.
* A Python dict of prices keyed by `instance.items` is modelled as a function
  `I → R`; dict equality (used by `updated_prices not in neighbors`) is
  modelled by pointwise comparison on the item list (`price_mem`), since
  every price dict built by the source has exactly `instance.items` as keys.
* `student_best_bundle` initialises every entry to `None` and only overwrites
  it when an affordable bundle exists, so an allocation maps each agent to
  `Option (List I)`; `none` is Python's `None`.
* Fallible code is modelled with `Except`: the controller `tabu_search`
  raises `AttributeError` at `history.add` (a `dict` has no `add` method) on
  every iteration that does not converge, and `TypeError` inside
  `excess_demand` when some agent's bundle is `None`.
-/

namespace Fairpyx

variable {A I R : Type} [DecidableEq A] [DecidableEq I] [LinearOrderedRing R]

/-- The read-only queries the engine consumes from the fairpyx `Instance`
collaborator (`agents`, `items`, `agent_capacity`, `item_capacity`,
`agent_bundle_value`), exactly the interface the source reads. -/
structure Instance (A I R : Type) where
  agents : List A
  items : List I
  agent_capacity : A → ℕ
  item_capacity : I → ℤ
  agent_bundle_value : A → List I → R

/-- Python's `itertools.combinations(l, r)`: all length-`r` subsequences of `l`, in
the lexicographic-by-position order Python produces. -/
def combinations : List I → ℕ → List (List I)
  | _, 0 => [[]]
  | [], _ + 1 => []
  | x :: xs, r + 1 => (combinations xs r).map (x :: ·) ++ combinations xs (r + 1)

/-- The bundle price `sum(prices[course] for course in combination)`. -/
def bundle_price (prices : I → R) (combination : List I) : R :=
  (combination.map prices).sum

/-- Insert into a list already sorted in descending `val`-order, after every
element of strictly greater value: together with `sort_desc` this reproduces
Python's stable `sorted(key=val, reverse=True)` (ties keep original order). -/
def insert_desc (val : List I → R) (c : List I) : List (List I) → List (List I)
  | [] => [c]
  | d :: ds => if val c < val d then d :: insert_desc val c ds else c :: d :: ds

/-- Stable sort in descending `val`-order, as Python's
`sorted(combinations_courses_list, key=valuation_function, reverse=True)`. -/
def sort_desc (val : List I → R) : List (List I) → List (List I)
  | [] => []
  | c :: cs => insert_desc val c (sort_desc val cs)

/-- The candidate list built in `student_best_bundle` (and re-enumerated in
`find_all_equivalent_prices`): all bundles of sizes `1 .. capacity`, sizes in
increasing order.  The empty bundle is never generated (`range(1, ...)`). -/
def all_candidates (inst : Instance A I R) (student : A) : List (List I) :=
  ((List.range (inst.agent_capacity student)).map
    (fun r => combinations inst.items (r + 1))).flatten

/-- The Demand Oracle `student_best_bundle(prices, instance, initial_budgets)`: for each agent
of the instance, scan the candidate bundles in stable descending value order
and keep the first whose price is within budget; the entry stays `None`
(here `none`) when no candidate is affordable.  Agents outside
`instance.agents` have no key in the Python dict; they map to `none`. -/
def student_best_bundle (prices : I → R) (inst : Instance A I R)
    (initial_budgets : A → R) : A → Option (List I) :=
  fun student =>
    if student ∈ inst.agents then
      (sort_desc (inst.agent_bundle_value student)
          (all_candidates inst student)).find?
        (fun combination =>
          decide (bundle_price prices combination ≤ initial_budgets student))
    else none

/-- The evaluator `excess_demand(instance, allocation)`: per item, occupants minus
capacity.  Defined on total allocations `A → List I`; the Python original
raises `TypeError` when a bundle is `None`, which the controller model
accounts for separately. -/
def excess_demand (inst : Instance A I R) (allocation : A → List I)
    (course : I) : ℤ :=
  (inst.agents.countP (fun student => decide (course ∈ allocation student)) : ℤ)
    - inst.item_capacity course

/-- The evaluator `clipped_excess_demand`: floor negative excess demand to 0 exactly when
the item's price is 0. -/
def clipped_excess_demand (inst : Instance A I R) (prices : I → R)
    (allocation : A → List I) (course : I) : ℤ :=
  if prices course = 0 then max 0 (excess_demand inst allocation course)
  else excess_demand inst allocation course

/-- Total-allocation view of an oracle result: `none` read as the empty
bundle.  Used only where the Python code would raise on a `None` bundle; no
theorem below depends on the completion value. -/
def alloc_or_empty (allocation : A → Option (List I)) : A → List I :=
  fun student => (allocation student).getD []

/-- An equivalence-region constraint, the explicit value form of the closures
`lambda p: sum(p[key] for key in S) <= b` / `>= b` that
`find_all_equivalent_prices` builds from an allocation (one `≤`-constraint
per agent's affordable bundle, one `≥`-constraint per at-least-as-valuable
alternative bundle). -/
inductive PriceConstraint (I R : Type) where
  | le : List I → R → PriceConstraint I R
  | ge : List I → R → PriceConstraint I R

/-- Evaluate a constraint closure on a price vector: `f(p)`. -/
def PriceConstraint.holds (prices : I → R) : PriceConstraint I R → Bool
  | .le S b => decide (bundle_price prices S ≤ b)
  | .ge S b => decide (b ≤ bundle_price prices S)

/-- The membership test `any([f(updated_prices) for f in history])`: the price vector satisfies
some constraint of the tabu memory. -/
def is_tabu (history : List (PriceConstraint I R)) (prices : I → R) : Bool :=
  history.any (PriceConstraint.holds prices)

/-- The single gradient candidate
`{item: max(0, price + delta * excess_demand_vector.get(item, 0))}`. -/
def gradient_price (prices : I → R) (delta : R) (excess_demand_vector : I → ℤ)
    (item : I) : R :=
  max 0 (prices item + delta * (excess_demand_vector item : R))

/-- The generator `find_gradient_neighbors`: appends the single gradient candidate to the
neighbor list.  The tabu filter in the source is commented out
(`# if updated_prices not in history:`), so the candidate is appended
unconditionally; the `history` argument is accepted and ignored. -/
def find_gradient_neighbors (neighbors : List (I → R))
    (_history : List (PriceConstraint I R)) (prices : I → R) (delta : R)
    (excess_demand_vector : I → ℤ) : List (I → R) :=
  neighbors ++ [gradient_price prices delta excess_demand_vector]

/-- The test `differ_in_one_value(original_allocation, new_allocation, course)`: the
two allocation dicts differ in exactly one key, the differing bundle of the
first dict contains `course` and the differing bundle of the second does
not.  `keys` is the shared key set of the two dicts (`instance.agents` at
every call site, where both dicts come from `student_best_bundle`; the
Python guard `key in new_allocation` is then always true).  A `None` bundle
is read as the empty tuple; on such inputs the Python original would raise
`TypeError`, and no call evaluated by a theorem below reaches that case. -/
def differ_in_one_value (keys : List A)
    (original_allocation new_allocation : A → Option (List I))
    (course : I) : Bool :=
  match keys.filter
      (fun key => decide (original_allocation key ≠ new_allocation key)) with
  | [diff_course] =>
      decide (course ∈ (original_allocation diff_course).getD []) &&
        decide (course ∉ (new_allocation diff_course).getD [])
  | _ => false

/-- The increment `updated_prices[course] += 1` iterated `k` times from `prices`. -/
def increase_price (prices : I → R) (course : I) (k : ℕ) (item : I) : R :=
  if item = course then prices item + (k : R) else prices item

/-- The assignment `updated_prices[course] = 0` on a copy of `prices`. -/
def zero_price (prices : I → R) (course : I) (item : I) : R :=
  if item = course then 0 else prices item

/-- Python's `updated_prices in neighbors`: list membership by dict
equality, i.e. pointwise equality on the shared key set `items`. -/
def price_mem (items : List I) (prices : I → R) (neighbors : List (I → R)) : Bool :=
  neighbors.any (fun q => items.all (fun item => decide (prices item = q item)))

/-- One pass of the `for _ in range(35)` loop body of
`find_individual_price_adjustment_neighbors` for a course with positive
excess demand: after the `k+1`-st unit increment of the course's price
(`updated_prices[course] += 1` accumulates, `continue` does not undo it),
skip if the vector is tabu; otherwise append it when the oracle allocation
at it differs from `allocation` in exactly one agent whose new bundle
contains the course while its `allocation` bundle does not (the source
passes `new_allocation` as the FIRST argument of `differ_in_one_value`) and
the vector is not already listed.  There is no `break`: the loop always
runs all 35 steps. -/
def indiv_inner_step (inst : Instance A I R)
    (history : List (PriceConstraint I R)) (prices : I → R) (course : I)
    (initial_budgets : A → R) (allocation : A → Option (List I))
    (acc : List (I → R)) (k : ℕ) : List (I → R) :=
  let updated_prices := increase_price prices course (k + 1)
  if is_tabu history updated_prices then acc
  else
    let new_allocation := student_best_bundle updated_prices inst initial_budgets
    if differ_in_one_value inst.agents new_allocation allocation course
        && !price_mem inst.items updated_prices acc then
      acc ++ [updated_prices]
    else acc

/-- The body of the `for course, excess_demand in excess_demand_vector.items()`
loop of `find_individual_price_adjustment_neighbors`: run the 35-step
increment loop for positive excess demand, propose zeroing the course's
price for negative excess demand (when not tabu and not already listed),
skip otherwise. -/
def indiv_outer_step (inst : Instance A I R)
    (history : List (PriceConstraint I R)) (prices : I → R)
    (excess_demand_vector : I → ℤ) (initial_budgets : A → R)
    (allocation : A → Option (List I)) (acc : List (I → R)) (course : I) :
    List (I → R) :=
  if 0 < excess_demand_vector course then
    (List.range 35).foldl
      (indiv_inner_step inst history prices course initial_budgets allocation)
      acc
  else if excess_demand_vector course < 0 then
    let updated_prices := zero_price prices course
    if !is_tabu history updated_prices
        && !price_mem inst.items updated_prices acc then
      acc ++ [updated_prices]
    else acc
  else acc

/-- The generator `find_individual_price_adjustment_neighbors`: fold the per-course loop
body over the courses of the excess-demand dict (keyed by `instance.items`
at the call site, in that order). -/
def find_individual_price_adjustment_neighbors (inst : Instance A I R)
    (neighbors : List (I → R)) (history : List (PriceConstraint I R))
    (prices : I → R) (excess_demand_vector : I → ℤ)
    (initial_budgets : A → R) (allocation : A → Option (List I)) :
    List (I → R) :=
  inst.items.foldl
    (indiv_outer_step inst history prices excess_demand_vector initial_budgets
      allocation)
    neighbors

/-- The generator `find_all_neighbors`: gradient candidate first, then the individual
price adjustment candidates. -/
def find_all_neighbors (inst : Instance A I R) (neighbors : List (I → R))
    (history : List (PriceConstraint I R)) (prices : I → R) (delta : R)
    (excess_demand_vector : I → ℤ) (initial_budgets : A → R)
    (allocation : A → Option (List I)) : List (I → R) :=
  find_individual_price_adjustment_neighbors inst
    (find_gradient_neighbors neighbors history prices delta excess_demand_vector)
    history prices excess_demand_vector initial_budgets allocation

/-- The squared L2 norm of the clipped excess demand of the oracle
allocation at `prices`, over the item list.  The source compares
`np.linalg.norm` values, which are the square roots of these integers;
since both are nonnegative and square root is strictly monotone, comparing
squared norms is equivalent, and `norm == 0` iff the squared norm is 0. -/
def err_sq (inst : Instance A I R) (prices : I → R)
    (allocation : A → List I) : ℤ :=
  (inst.items.map (fun course =>
    clipped_excess_demand inst prices allocation course ^ 2)).sum

/-- The loop body of `find_min_error_prices`: evaluate one neighbor through
the oracle and the clipped excess demand, and keep whichever of it and the
best-so-far has the strictly smaller error (`min_error` starts at
`float('inf')`, so the first neighbor always replaces it; later ties do
not). -/
def min_error_step (inst : Instance A I R) (initial_budgets : A → R)
    (acc : Option (ℤ × (I → R))) (neighbor : I → R) : Option (ℤ × (I → R)) :=
  let error := err_sq inst neighbor
    (alloc_or_empty (student_best_bundle neighbor inst initial_budgets))
  match acc with
  | none => some (error, neighbor)
  | some (min_error, best) =>
      if error < min_error then some (error, neighbor)
      else some (min_error, best)

/-- The Neighbor Selector `find_min_error_prices`: fold `min_error_step` over the neighbor list
from `(float('inf'), None)` (modelled as `none`).  An empty neighbor list
yields `None`. -/
def find_min_error_prices (inst : Instance A I R) (neighbors : List (I → R))
    (initial_budgets : A → R) : Option (I → R) :=
  (neighbors.foldl (min_error_step inst initial_budgets) none).map Prod.snd

/-- Uncaught Python exceptions of the controller run. -/
inductive PyError where
  | typeError : PyError
  | attributeError : PyError
deriving DecidableEq

/-- The Search Controller `tabu_search(instance, initial_budgets, beta)` after the initial price
draw (the draw itself is ambient randomness; the drawn vector is the
`prices` argument here).  The `while norma2:` body runs its first iteration
and then necessarily leaves the function, so the embedding is straight-line:

* `clipped_excess_demand` (line 541) raises `TypeError` as soon as some
  agent's bundle is `None` and there is at least one course to iterate;
* otherwise, if the clipped excess-demand norm is 0, the loop breaks and the
  allocation is returned;
* otherwise line 552 executes `history.add(equivalent_prices)` on
  `history = {}`, a `dict`, which has no `add` method: `AttributeError`.
  (The `find_all_equivalent_prices` call on line 551 completes but its
  result is lost with the exception.)

In particular neither `find_all_neighbors` nor `find_min_error_prices` is
ever reached, and `prices` is never reassigned — line 558 discards the
return value of `find_min_error_prices` anyway. -/
def tabu_search (inst : Instance A I R) (initial_budgets : A → R)
    (prices : I → R) : Except PyError (A → Option (List I)) :=
  let allocation := student_best_bundle prices inst initial_budgets
  match !inst.items.isEmpty
      && inst.agents.any (fun a => (allocation a).isNone),
    decide (err_sq inst prices (alloc_or_empty allocation) = 0) with
  | true, _ => Except.error PyError.typeError
  | false, true => Except.ok allocation
  | false, false => Except.error PyError.attributeError

/-- What actually characterises every vector the individual
price-adjustment generator appends: it satisfies no tabu constraint at
generation time, and it is either a `k`-step unit increment (`1 ≤ k ≤ 35`)
of a course with positive excess demand whose oracle allocation passes the
source's `differ_in_one_value(new_allocation, allocation, course)` test, or
the zeroing of a course with negative excess demand. -/
def indiv_candidate (inst : Instance A I R) (prices : I → R)
    (history : List (PriceConstraint I R)) (excess_demand_vector : I → ℤ)
    (initial_budgets : A → R) (allocation : A → Option (List I))
    (q : I → R) : Prop :=
  is_tabu history q = false ∧
    ((∃ course ∈ inst.items, ∃ k : ℕ, 0 < excess_demand_vector course ∧
        1 ≤ k ∧ k ≤ 35 ∧ q = increase_price prices course k ∧
        differ_in_one_value inst.agents
          (student_best_bundle q inst initial_budgets) allocation course
          = true) ∨
      (∃ course ∈ inst.items, excess_demand_vector course < 0 ∧
        q = zero_price prices course))

/-! ## Concrete inputs

Small concrete instances (agents and items are natural numbers, all numeric
data integer-valued) used to evaluate the embedding on actual runs. -/

/-- Two agents of capacity 1 both wanting the single seat of the only
course: one seat short, so excess demand stays positive. -/
def twoAgentsOneSeat : Instance ℕ ℕ ℤ where
  agents := [0, 1]
  items := [0]
  agent_capacity := fun _ => 1
  item_capacity := fun _ => 1
  agent_bundle_value := fun _ c => (c.length : ℤ)

/-- Three agents of capacity 1 and a single course with two seats: one seat
short. -/
def threeAgentsTwoSeats : Instance ℕ ℕ ℤ where
  agents := [0, 1, 2]
  items := [0]
  agent_capacity := fun _ => 1
  item_capacity := fun _ => 2
  agent_bundle_value := fun _ c => (c.length : ℤ)

/-- One agent, one course: at price 5 with budget 1 nothing is affordable. -/
def unaffordableInstance : Instance ℕ ℕ ℤ where
  agents := [0]
  items := [0]
  agent_capacity := fun _ => 1
  item_capacity := fun _ => 1
  agent_bundle_value := fun _ c => (c.length : ℤ)

/-- The spec's exhaustion scenario: two agents of capacity 2 and two courses
with one seat each, every agent demanding both courses — four seats wanted,
two exist, no slack anywhere. -/
def fourSeatsWanted : Instance ℕ ℕ ℤ where
  agents := [0, 1]
  items := [0, 1]
  agent_capacity := fun _ => 2
  item_capacity := fun _ => 1
  agent_bundle_value := fun _ c => (c.length : ℤ)

/-- One agent and a course of capacity 0: over-demand that cannot clear. -/
def zeroCapacityItem : Instance ℕ ℕ ℤ where
  agents := [0]
  items := [0]
  agent_capacity := fun _ => 1
  item_capacity := fun _ => 0
  agent_bundle_value := fun _ c => (c.length : ℤ)

/-- One agent of capacity 1 and two courses: course 0 (value 5, zero seats)
is over-demanded, course 1 (value 3, five seats) has slack.  Raising the
price of course 0 past the budget makes the agent drop it for course 1. -/
def dropScenario : Instance ℕ ℕ ℤ where
  agents := [0]
  items := [0, 1]
  agent_capacity := fun _ => 1
  item_capacity := fun i => if i = 0 then 0 else 5
  agent_bundle_value := fun _ c =>
    (c.map (fun i => if i = 0 then (5 : ℤ) else 3)).sum

/-- Current prices in the drop scenario: course 0 costs 4, course 1 costs 2. -/
def dropPrices : ℕ → ℤ := fun i => if i = 0 then 4 else 2

/-- Budgets in the drop scenario. -/
def dropBudgets : ℕ → ℤ := fun _ => 10

/-- The oracle allocation at the current drop-scenario prices: the agent
takes course 0 (`some [0]`). -/
def dropAllocation : ℕ → Option (List ℕ) :=
  student_best_bundle dropPrices dropScenario dropBudgets

/-- The clipped excess demand at the current drop-scenario prices:
`+1` on course 0, `-5` on course 1. -/
def dropZ : ℕ → ℤ :=
  clipped_excess_demand dropScenario dropPrices (alloc_or_empty dropAllocation)

/-- Budgets for runs on `zeroCapacityItem`. -/
def zciBudgets : ℕ → ℤ := fun _ => 100

/-- Unit prices for runs on `zeroCapacityItem`. -/
def zciPrices : ℕ → ℤ := fun _ => 1

/-- The oracle allocation on `zeroCapacityItem` at unit prices: the agent
takes the course (`some [0]`). -/
def zciAllocation : ℕ → Option (List ℕ) :=
  student_best_bundle zciPrices zeroCapacityItem zciBudgets

/-- The clipped excess demand on `zeroCapacityItem` at unit prices: `+1`. -/
def zciZ : ℕ → ℤ :=
  clipped_excess_demand zeroCapacityItem zciPrices (alloc_or_empty zciAllocation)

/-- The affordability constraint `p[0] <= 100` that
`find_all_equivalent_prices` derives from `zciAllocation` (the agent's
allocated bundle `[0]` must stay within its budget 100). -/
def zciHistory : List (PriceConstraint ℕ ℤ) := [PriceConstraint.le [0] 100]

/-! ## Helper lemmas -/

theorem mem_insert_desc (val : List I → R) (c d : List I) (l : List (List I)) :
    d ∈ insert_desc val c l ↔ d = c ∨ d ∈ l := by
  induction l with
  | nil => simp [insert_desc]
  | cons e es ih =>
    simp only [insert_desc]
    split
    · simp only [List.mem_cons, ih]
      tauto
    · simp only [List.mem_cons]

theorem mem_sort_desc (val : List I → R) (d : List I) (l : List (List I)) :
    d ∈ sort_desc val l ↔ d ∈ l := by
  induction l with
  | nil => simp [sort_desc]
  | cons c cs ih => simp [sort_desc, mem_insert_desc, ih]

theorem combinations_length :
    ∀ (l : List I) (r : ℕ) (c : List I), c ∈ combinations l r → c.length = r := by
  intro l
  induction l with
  | nil =>
    intro r c hc
    cases r with
    | zero => simp only [combinations, List.mem_singleton] at hc; simp [hc]
    | succ r => simp [combinations] at hc
  | cons x xs ih =>
    intro r c hc
    cases r with
    | zero => simp only [combinations, List.mem_singleton] at hc; simp [hc]
    | succ r =>
      simp only [combinations, List.mem_append, List.mem_map] at hc
      rcases hc with ⟨c2, hc2, rfl⟩ | hc
      · simp [ih r c2 hc2]
      · exact ih (r + 1) c hc

theorem length_of_mem_all_candidates {inst : Instance A I R} {student : A}
    {c : List I} (hc : c ∈ all_candidates inst student) :
    1 ≤ c.length ∧ c.length ≤ inst.agent_capacity student := by
  simp only [all_candidates, List.mem_flatten, List.mem_map] at hc
  obtain ⟨L, ⟨r, hr, rfl⟩, hcL⟩ := hc
  have hlen := combinations_length inst.items (r + 1) c hcL
  rw [List.mem_range] at hr
  omega

/-- A fold whose every step only ever appends elements satisfying `P`
extends its accumulator by a suffix of `P`-elements. -/
theorem foldl_extends {β γ : Type} (P : γ → Prop) :
    ∀ (l : List β) (step : List γ → β → List γ),
      (∀ acc b, b ∈ l → ∃ fr, step acc b = acc ++ fr ∧ ∀ q ∈ fr, P q) →
      ∀ acc, ∃ fresh, l.foldl step acc = acc ++ fresh ∧ ∀ q ∈ fresh, P q := by
  intro l
  induction l with
  | nil =>
    intro step _ acc
    exact ⟨[], by simp, by simp⟩
  | cons b bs ih =>
    intro step hstep acc
    obtain ⟨fr, hfr, hP⟩ := hstep acc b (by simp)
    obtain ⟨fresh, hfresh, hPf⟩ :=
      ih step (fun acc2 c hc => hstep acc2 c (List.mem_cons_of_mem b hc))
        (acc ++ fr)
    refine ⟨fr ++ fresh, ?_, ?_⟩
    · rw [List.foldl_cons, hfr, hfresh, List.append_assoc]
    · intro q hq
      rcases List.mem_append.mp hq with h | h
      · exact hP q h
      · exact hPf q h

/-- Every step of the inner 35-increment loop appends at most the current
increment vector, and only when it is not tabu and passes the source's
acceptance test. -/
theorem indiv_inner_step_extends (inst : Instance A I R)
    (history : List (PriceConstraint I R)) (prices : I → R) (course : I)
    (excess_demand_vector : I → ℤ) (initial_budgets : A → R)
    (allocation : A → Option (List I))
    (hcourse : course ∈ inst.items)
    (hpos : 0 < excess_demand_vector course)
    (acc : List (I → R)) (k : ℕ) (hk : k ∈ List.range 35) :
    ∃ fr, indiv_inner_step inst history prices course initial_budgets
        allocation acc k = acc ++ fr ∧
      ∀ q ∈ fr, indiv_candidate inst prices history excess_demand_vector
        initial_budgets allocation q := by
  unfold indiv_inner_step
  by_cases htb :
      is_tabu history (increase_price prices course (k + 1)) = true
  · exact ⟨[], by simp [htb], by simp⟩
  · rw [Bool.not_eq_true] at htb
    by_cases hcond : (differ_in_one_value inst.agents
          (student_best_bundle (increase_price prices course (k + 1)) inst
            initial_budgets)
          allocation course
        && !price_mem inst.items (increase_price prices course (k + 1)) acc)
        = true
    · refine ⟨[increase_price prices course (k + 1)],
        by simp [htb, hcond], ?_⟩
      intro q hq
      rw [List.mem_singleton] at hq
      subst hq
      refine ⟨htb, Or.inl ⟨course, hcourse, k + 1, hpos, ?_, ?_, rfl, ?_⟩⟩
      · omega
      · have := List.mem_range.mp hk
        omega
      · have hc2 := hcond
        rw [Bool.and_eq_true] at hc2
        exact hc2.1
    · exact ⟨[], by simp [htb, hcond], by simp⟩

/-- Every step of the per-course loop appends only vectors satisfying
`indiv_candidate`. -/
theorem indiv_outer_step_extends (inst : Instance A I R)
    (history : List (PriceConstraint I R)) (prices : I → R)
    (excess_demand_vector : I → ℤ) (initial_budgets : A → R)
    (allocation : A → Option (List I))
    (acc : List (I → R)) (course : I) (hcourse : course ∈ inst.items) :
    ∃ fr, indiv_outer_step inst history prices excess_demand_vector
        initial_budgets allocation acc course = acc ++ fr ∧
      ∀ q ∈ fr, indiv_candidate inst prices history excess_demand_vector
        initial_budgets allocation q := by
  unfold indiv_outer_step
  by_cases hpos : 0 < excess_demand_vector course
  · rw [if_pos hpos]
    exact foldl_extends _ (List.range 35) _
      (fun acc2 k hk => indiv_inner_step_extends inst history prices course
        excess_demand_vector initial_budgets allocation hcourse hpos acc2 k hk)
      acc
  · rw [if_neg hpos]
    by_cases hneg : excess_demand_vector course < 0
    · rw [if_pos hneg]
      by_cases hc : (!is_tabu history (zero_price prices course)
          && !price_mem inst.items (zero_price prices course) acc) = true
      · refine ⟨[zero_price prices course], by simp [hc], ?_⟩
        intro q hq
        rw [List.mem_singleton] at hq
        subst hq
        have hc2 := hc
        rw [Bool.and_eq_true] at hc2
        exact ⟨by simpa using hc2.1, Or.inr ⟨course, hcourse, hneg, rfl⟩⟩
      · exact ⟨[], by simp [hc], by simp⟩
    · rw [if_neg hneg]
      exact ⟨[], by simp, by simp⟩

/-- The individual price-adjustment generator only extends the neighbor
list, and every vector it adds satisfies `indiv_candidate`: in particular
it is not tabu at generation time. -/
theorem find_individual_price_adjustment_sound (inst : Instance A I R)
    (neighbors : List (I → R)) (history : List (PriceConstraint I R))
    (prices : I → R) (excess_demand_vector : I → ℤ)
    (initial_budgets : A → R) (allocation : A → Option (List I)) :
    ∃ fresh,
      find_individual_price_adjustment_neighbors inst neighbors history prices
          excess_demand_vector initial_budgets allocation
        = neighbors ++ fresh ∧
      ∀ q ∈ fresh, indiv_candidate inst prices history excess_demand_vector
        initial_budgets allocation q := by
  unfold find_individual_price_adjustment_neighbors
  exact foldl_extends _ inst.items _
    (fun acc course hcourse => indiv_outer_step_extends inst history prices
      excess_demand_vector initial_budgets allocation acc course hcourse)
    neighbors

/-- The selector fold only ever returns its incoming accumulator or a pair
whose vector is one of the folded neighbors. -/
theorem foldl_min_error_mem (inst : Instance A I R) (initial_budgets : A → R) :
    ∀ (l : List (I → R)) (acc : Option (ℤ × (I → R))) (pr : ℤ × (I → R)),
      l.foldl (min_error_step inst initial_budgets) acc = some pr →
      acc = some pr ∨ pr.2 ∈ l := by
  intro l
  induction l with
  | nil =>
    intro acc pr h
    exact Or.inl h
  | cons n ns ih =>
    intro acc pr h
    rw [List.foldl_cons] at h
    rcases ih _ pr h with h2 | h2
    · unfold min_error_step at h2
      rcases acc with _ | ⟨m, b⟩
      · right
        obtain rfl : pr = (_, n) := (Option.some.inj h2).symm
        simp
      · simp only at h2
        split at h2
        · right
          obtain rfl : pr = (_, n) := (Option.some.inj h2).symm
          simp
        · exact Or.inl h2
    · exact Or.inr (List.mem_cons_of_mem n h2)

/-- A vector returned by the Neighbor Selector is one of its candidates. -/
theorem find_min_error_prices_mem (inst : Instance A I R)
    (neighbors : List (I → R)) (initial_budgets : A → R) (q : I → R)
    (h : find_min_error_prices inst neighbors initial_budgets = some q) :
    q ∈ neighbors := by
  unfold find_min_error_prices at h
  rcases hf : neighbors.foldl (min_error_step inst initial_budgets) none
    with _ | pr
  · rw [hf] at h
    simp at h
  · rw [hf] at h
    rw [Option.map_some'] at h
    rcases foldl_min_error_mem inst initial_budgets neighbors none pr hf
      with h2 | h2
    · exact absurd h2 (by simp)
    · rw [← Option.some.inj h]
      exact h2

/-! ## Claim theorems -/

/-- C8: for every instance, price vector and budgets, every bundle the
Demand Oracle returns for an agent has size at most that agent's capacity
and total price at most that agent's budget. -/
theorem student_best_bundle_capacity_budget (prices : I → R)
    (inst : Instance A I R) (initial_budgets : A → R) (student : A)
    (b : List I)
    (h : student_best_bundle prices inst initial_budgets student = some b) :
    b.length ≤ inst.agent_capacity student ∧
      bundle_price prices b ≤ initial_budgets student := by
  unfold student_best_bundle at h
  by_cases hs : student ∈ inst.agents
  · rw [if_pos hs] at h
    have hb : b ∈ all_candidates inst student :=
      (mem_sort_desc _ _ _).mp (List.mem_of_find?_eq_some h)
    refine ⟨(length_of_mem_all_candidates hb).2, ?_⟩
    have := List.find?_some h
    exact of_decide_eq_true this
  · rw [if_neg hs] at h
    exact absurd h (by simp)

/-- C8 witness: a concrete run of the oracle returning a bundle, with the
capacity and budget bounds instantiated. -/
theorem student_best_bundle_capacity_budget_witness :
    student_best_bundle (fun _ => (1 : ℤ)) twoAgentsOneSeat (fun _ => 10) 0
        = some [0] ∧
      (([0] : List ℕ).length ≤ twoAgentsOneSeat.agent_capacity 0 ∧
        bundle_price (fun _ => (1 : ℤ)) [0] ≤ (fun _ => (10 : ℤ)) 0) :=
  ⟨by decide,
    student_best_bundle_capacity_budget (fun _ => (1 : ℤ)) twoAgentsOneSeat
      (fun _ => 10) 0 [0] (by decide)⟩

/-- C10: the Neighbor Selector returns `None` on an empty candidate list —
no price vector and no exception. -/
theorem find_min_error_prices_nil (inst : Instance A I R)
    (initial_budgets : A → R) :
    find_min_error_prices inst [] initial_budgets = none := rfl

/-- C1: evaluation of the controller at a non-converged input.  The run
raises `AttributeError` at `history.add` on the first iteration, before
`find_min_error_prices` is ever called, so no iteration ever computes the
allocation at a selector output; independently, line 558 discards the
selector's return value, so `prices` is never reassigned. -/
theorem tabu_search_never_updates_prices :
    tabu_search twoAgentsOneSeat (fun _ => 10) (fun _ => 1)
      = Except.error PyError.attributeError := rfl

/-- C2: evaluation of the controller at a non-converged input.
`history = {}` is a `dict` and `dict` has no `add` method, so the very
first attempt to append equivalence constraints to the tabu memory raises
`AttributeError`; no constraint is ever stored. -/
theorem tabu_search_history_add_crashes :
    tabu_search threeAgentsTwoSeats (fun _ => 7) (fun _ => 1)
      = Except.error PyError.attributeError := rfl

/-- C3 counterexample: with one course priced 5 and a budget of 1, no
non-empty bundle is affordable, and the Demand Oracle's entry for the agent
is the absent value `None` — not the empty bundle. -/
theorem student_best_bundle_none_counterexample :
    student_best_bundle (fun _ => (5 : ℤ)) unaffordableInstance (fun _ => 1) 0
        = none ∧
      student_best_bundle (fun _ => (5 : ℤ)) unaffordableInstance (fun _ => 1) 0
        ≠ some [] := by
  constructor
  · decide
  · decide

/-- C3 amended: the Demand Oracle scans candidates in descending value
order, but the empty bundle is never among the candidates (sizes start at
1), and when no candidate is affordable the agent's entry is the absent
value `none`, not the empty bundle. -/
theorem student_best_bundle_fallback_none (prices : I → R)
    (inst : Instance A I R) (initial_budgets : A → R) (student : A)
    (hs : student ∈ inst.agents) :
    [] ∉ all_candidates inst student ∧
      (student_best_bundle prices inst initial_budgets student = none ↔
        ∀ c ∈ all_candidates inst student,
          initial_budgets student < bundle_price prices c) := by
  constructor
  · intro hmem
    have := (length_of_mem_all_candidates hmem).1
    simp at this
  · unfold student_best_bundle
    rw [if_pos hs, List.find?_eq_none]
    constructor
    · intro h c hc
      have := h c ((mem_sort_desc _ _ _).mpr hc)
      simpa [not_le] using this
    · intro h c hc
      have := h c ((mem_sort_desc _ _ _).mp hc)
      simpa [not_le] using this

/-- C3 amended witness: at the concrete unaffordable input the candidate
list omits the empty bundle and the oracle's entry is `none`. -/
theorem student_best_bundle_fallback_none_witness :
    (0 ∈ unaffordableInstance.agents) ∧
      ([] ∉ all_candidates unaffordableInstance 0 ∧
        (student_best_bundle (fun _ => (5 : ℤ)) unaffordableInstance
            (fun _ => 1) 0 = none ↔
          ∀ c ∈ all_candidates unaffordableInstance 0,
            (fun _ => (1 : ℤ)) 0 < bundle_price (fun _ => (5 : ℤ)) c)) :=
  ⟨by decide,
    student_best_bundle_fallback_none (fun _ => (5 : ℤ)) unaffordableInstance
      (fun _ => 1) 0 (by decide)⟩

/-- C7 counterexample: on the spec's exhaustion scenario (four seats wanted,
two exist, no slack) the controller terminates, but not with any
SearchExhausted-style failure value: it raises an uncaught `AttributeError`
at the tabu-memory update on the first iteration, before any neighbor is
generated; the code has no iteration cap and no explicit failure result. -/
theorem tabu_search_exhaustion_counterexample :
    tabu_search fourSeatsWanted (fun _ => 10) (fun _ => 1)
      = Except.error PyError.attributeError := rfl

/-- C7 amended: the controller always terminates, but a run that does not
converge at its initial prices never reaches neighbor generation or an
iteration bound: provided every agent has an affordable bundle, it ends on
the first iteration with an uncaught `AttributeError` from `history.add`. -/
theorem tabu_search_nonconverged_crashes (inst : Instance A I R)
    (initial_budgets : A → R) (prices : I → R)
    (hsome : ∀ a ∈ inst.agents,
      (student_best_bundle prices inst initial_budgets a).isSome = true)
    (hnz : err_sq inst prices
      (alloc_or_empty (student_best_bundle prices inst initial_budgets)) ≠ 0) :
    tabu_search inst initial_budgets prices
      = Except.error PyError.attributeError := by
  have h1 : (!inst.items.isEmpty
      && inst.agents.any
        (fun a => (student_best_bundle prices inst initial_budgets a).isNone))
      = false := by
    rw [Bool.and_eq_false_iff]
    right
    rw [List.any_eq_false]
    intro a ha
    have h := hsome a ha
    rcases hx : student_best_bundle prices inst initial_budgets a with _ | b
    · rw [hx] at h
      simp at h
    · simp [hx]
  have h2 : decide (err_sq inst prices
      (alloc_or_empty (student_best_bundle prices inst initial_budgets)) = 0)
      = false := by simpa using hnz
  unfold tabu_search
  simp only [h1, h2]

/-- C7 amended witness: a concrete over-demanded instance where every agent
has an affordable bundle and the clipped excess demand is non-zero, so the
run ends in the `AttributeError`. -/
theorem tabu_search_nonconverged_crashes_witness :
    (∀ a ∈ zeroCapacityItem.agents,
        (student_best_bundle (fun _ => (1 : ℤ)) zeroCapacityItem
          (fun _ => 10) a).isSome = true) ∧
      err_sq zeroCapacityItem (fun _ => (1 : ℤ))
        (alloc_or_empty (student_best_bundle (fun _ => (1 : ℤ)) zeroCapacityItem
          (fun _ => 10))) ≠ 0 ∧
      tabu_search zeroCapacityItem (fun _ => 10) (fun _ => 1)
        = Except.error PyError.attributeError :=
  ⟨by decide, by decide,
    tabu_search_nonconverged_crashes zeroCapacityItem (fun _ => 10)
      (fun _ => 1) (by decide) (by decide)⟩

/-- C5: the gradient neighbor computed by the controller from the clipped
excess-demand vector is the single candidate `p' = max(0, p + delta*z)`
component-wise with `z` the raw (unclipped, signed) excess demand — the two
vectors coincide because clipping only changes items priced 0 with negative
demand, where both formulas floor at 0 — and exactly one candidate is
appended per call. -/
theorem find_gradient_neighbors_formula (inst : Instance A I R)
    (neighbors : List (I → R)) (history : List (PriceConstraint I R))
    (prices : I → R) (delta : R) (allocation : A → List I)
    (hdelta : 0 ≤ delta) :
    find_gradient_neighbors neighbors history prices delta
        (clipped_excess_demand inst prices allocation)
      = neighbors ++ [fun item =>
          max 0 (prices item
            + delta * (excess_demand inst allocation item : R))] := by
  unfold find_gradient_neighbors
  have h : gradient_price prices delta
        (clipped_excess_demand inst prices allocation)
      = fun item => max 0 (prices item
          + delta * (excess_demand inst allocation item : R)) := by
    funext item
    unfold gradient_price clipped_excess_demand
    by_cases hp : prices item = 0
    · rw [if_pos hp, hp]
      rcases le_or_lt (excess_demand inst allocation item) 0 with hz | hz
      · have h2 : delta * ((excess_demand inst allocation item : ℤ) : R) ≤ 0 :=
          mul_nonpos_iff.mpr (Or.inl ⟨hdelta, Int.cast_nonpos.mpr hz⟩)
        rw [max_eq_left hz, Int.cast_zero, mul_zero, add_zero, zero_add,
          max_self]
        exact (max_eq_left h2).symm
      · rw [max_eq_right hz.le]
    · rw [if_neg hp]
  rw [h]

/-- C5 witness: the gradient step at concrete non-converged prices. -/
theorem find_gradient_neighbors_formula_witness :
    (0 : ℤ) ≤ 1 ∧
      find_gradient_neighbors [] ([] : List (PriceConstraint ℕ ℤ))
          (fun _ => 1) 1
          (clipped_excess_demand twoAgentsOneSeat (fun _ => 1) (fun _ => [0]))
        = [] ++ [fun item =>
            max 0 (1 + 1 * (excess_demand twoAgentsOneSeat (fun _ => [0])
              item : ℤ))] :=
  ⟨by decide,
    find_gradient_neighbors_formula twoAgentsOneSeat [] [] (fun _ => 1) 1
      (fun _ => [0]) (by decide)⟩

/-- C4 counterexample: in the drop scenario, the 7th unit increment of the
over-demanded course's price is not tabu and its Demand-Oracle allocation
differs from the current allocation in exactly one agent's bundle, with
that agent dropping the over-demanded course — the vector the claim says
the generator accepts — yet the generated neighbor set does not contain
it.  (The source calls `differ_in_one_value(new_allocation, allocation,
course)`, whose final test therefore demands the agent's NEW bundle
contain the course, so no increment of a course ever qualifies when the
current allocation is the oracle's.) -/
theorem individual_adjustment_drop_counterexample :
    is_tabu ([] : List (PriceConstraint ℕ ℤ)) (increase_price dropPrices 0 7)
        = false ∧
      differ_in_one_value dropScenario.agents dropAllocation
          (student_best_bundle (increase_price dropPrices 0 7) dropScenario
            dropBudgets) 0 = true ∧
      price_mem dropScenario.items (increase_price dropPrices 0 7)
          (find_individual_price_adjustment_neighbors dropScenario [] []
            dropPrices dropZ dropBudgets dropAllocation) = false := by
  exact ⟨rfl, by decide, by decide⟩

/-- C4 amended: for each course with positive excess demand the generator
runs all 35 unit increments with no early exit; after each increment it
appends the vector (so a single course can contribute up to 35 candidates)
exactly when it is not tabu and
`differ_in_one_value(new_allocation, allocation, course)` holds — the
allocations differ in exactly one agent whose NEW bundle contains the
course while its current bundle does not; for each course with negative
excess demand it appends the zeroed vector when not tabu.  Every appended
vector is of one of these two shapes and is not tabu at generation time. -/
theorem individual_adjustment_candidates_characterized
    (inst : Instance A I R) (neighbors : List (I → R))
    (history : List (PriceConstraint I R)) (prices : I → R)
    (excess_demand_vector : I → ℤ) (initial_budgets : A → R)
    (allocation : A → Option (List I)) :
    ∃ fresh,
      find_individual_price_adjustment_neighbors inst neighbors history prices
          excess_demand_vector initial_budgets allocation
        = neighbors ++ fresh ∧
      ∀ q ∈ fresh, indiv_candidate inst prices history excess_demand_vector
        initial_budgets allocation q :=
  find_individual_price_adjustment_sound inst neighbors history prices
    excess_demand_vector initial_budgets allocation

/-- C6 counterexample: on `zeroCapacityItem` with the tabu memory holding
exactly the affordability constraint derived from the current allocation,
the gradient candidate satisfies that constraint (it is tabu) and is
nevertheless a member of the neighbor set produced by
`find_all_neighbors` — the gradient candidate is appended with no tabu
filtering. -/
theorem gradient_neighbor_not_filtered :
    is_tabu zciHistory (gradient_price zciPrices 1 zciZ) = true ∧
      price_mem zeroCapacityItem.items (gradient_price zciPrices 1 zciZ)
        (find_all_neighbors zeroCapacityItem [] zciHistory zciPrices 1 zciZ
          zciBudgets zciAllocation) = true := by
  exact ⟨by decide, by decide⟩

/-- C6 amended: the neighbor set handed to the selector is the gradient
candidate — appended unconditionally, without consulting the tabu memory —
followed by the individual price-adjustment candidates, each of which
satisfies no constraint of the tabu memory at generation time. -/
theorem find_all_neighbors_tabu_filter (inst : Instance A I R)
    (neighbors : List (I → R)) (history : List (PriceConstraint I R))
    (prices : I → R) (delta : R) (excess_demand_vector : I → ℤ)
    (initial_budgets : A → R) (allocation : A → Option (List I)) :
    ∃ fresh,
      find_all_neighbors inst neighbors history prices delta
          excess_demand_vector initial_budgets allocation
        = neighbors
            ++ gradient_price prices delta excess_demand_vector :: fresh ∧
      ∀ q ∈ fresh, is_tabu history q = false := by
  obtain ⟨fresh, heq, hP⟩ := find_individual_price_adjustment_sound inst
    (neighbors ++ [gradient_price prices delta excess_demand_vector]) history
    prices excess_demand_vector initial_budgets allocation
  refine ⟨fresh, ?_, fun q hq => (hP q hq).1⟩
  unfold find_all_neighbors find_gradient_neighbors
  rw [heq, List.append_assoc]
  rfl

/-- C9: when an item's raw excess demand at the current prices is strictly
positive (and the step size is positive), its price in every candidate of
the generated neighbor set is at least its current price, and hence so is
its price in any vector the Neighbor Selector returns for that set. -/
theorem positive_excess_price_monotone (inst : Instance A I R)
    (history : List (PriceConstraint I R)) (prices : I → R) (delta : R)
    (initial_budgets : A → R) (allocation : A → Option (List I)) (j : I)
    (hdelta : 0 < delta)
    (hraw : 0 < excess_demand inst (alloc_or_empty allocation) j) :
    (∀ q ∈ find_all_neighbors inst [] history prices delta
        (clipped_excess_demand inst prices (alloc_or_empty allocation))
        initial_budgets allocation, prices j ≤ q j) ∧
      ∀ q, find_min_error_prices inst
          (find_all_neighbors inst [] history prices delta
            (clipped_excess_demand inst prices (alloc_or_empty allocation))
            initial_budgets allocation) initial_budgets = some q →
        prices j ≤ q j := by
  have hclipj :
      clipped_excess_demand inst prices (alloc_or_empty allocation) j
        = excess_demand inst (alloc_or_empty allocation) j := by
    unfold clipped_excess_demand
    split
    · exact max_eq_right hraw.le
    · rfl
  obtain ⟨fresh, heq, hP⟩ := find_individual_price_adjustment_sound inst
    ([] ++ [gradient_price prices delta
      (clipped_excess_demand inst prices (alloc_or_empty allocation))])
    history prices
    (clipped_excess_demand inst prices (alloc_or_empty allocation))
    initial_budgets allocation
  have hall : find_all_neighbors inst [] history prices delta
      (clipped_excess_demand inst prices (alloc_or_empty allocation))
      initial_budgets allocation
      = ([] ++ [gradient_price prices delta
          (clipped_excess_demand inst prices (alloc_or_empty allocation))])
        ++ fresh := heq
  have hmain : ∀ q ∈ find_all_neighbors inst [] history prices delta
      (clipped_excess_demand inst prices (alloc_or_empty allocation))
      initial_budgets allocation, prices j ≤ q j := by
    intro q hq
    rw [hall] at hq
    simp only [List.nil_append, List.cons_append, List.mem_cons,
      List.mem_append, List.not_mem_nil, false_or] at hq
    rcases hq with rfl | hq
    · unfold gradient_price
      rw [hclipj]
      have hpos : (0 : R)
          < delta * ((excess_demand inst (alloc_or_empty allocation) j : ℤ) : R) :=
        mul_pos hdelta (by exact_mod_cast hraw)
      calc prices j ≤ prices j
            + delta * ((excess_demand inst (alloc_or_empty allocation) j : ℤ) : R) :=
              le_add_of_nonneg_right hpos.le
        _ ≤ _ := le_max_right 0 _
    · rcases hP q hq with ⟨-, hcase⟩
      rcases hcase with ⟨course, -, k, -, -, -, rfl, -⟩ |
        ⟨course, -, hneg, rfl⟩
      · unfold increase_price
        split
        · exact le_add_of_nonneg_right (by positivity)
        · exact le_refl _
      · have hne : j ≠ course := by
          intro hj
          rw [hj] at hclipj hraw
          rw [hclipj] at hneg
          omega
        unfold zero_price
        rw [if_neg hne]
  exact ⟨hmain, fun q hsel =>
    hmain q (find_min_error_prices_mem inst _ initial_budgets q hsel)⟩

/-- C9 witness: on `zeroCapacityItem` the course's raw excess demand is
positive and the monotonicity conclusion is instantiated at it. -/
theorem positive_excess_price_monotone_witness :
    (0 : ℤ) < 1 ∧
      0 < excess_demand zeroCapacityItem (alloc_or_empty zciAllocation) 0 ∧
      ((∀ q ∈ find_all_neighbors zeroCapacityItem [] zciHistory zciPrices 1
          (clipped_excess_demand zeroCapacityItem zciPrices
            (alloc_or_empty zciAllocation)) zciBudgets zciAllocation,
          zciPrices 0 ≤ q 0) ∧
        ∀ q, find_min_error_prices zeroCapacityItem
            (find_all_neighbors zeroCapacityItem [] zciHistory zciPrices 1
              (clipped_excess_demand zeroCapacityItem zciPrices
                (alloc_or_empty zciAllocation)) zciBudgets zciAllocation)
            zciBudgets = some q →
          zciPrices 0 ≤ q 0) :=
  ⟨by decide, by decide,
    positive_excess_price_monotone zeroCapacityItem zciHistory zciPrices 1
      zciBudgets zciAllocation 0 (by decide) (by decide)⟩

end Fairpyx
